import Mathlib

/-!
Verification of the Mina wallet browser extension's trust-boundary core:
the background service worker's session/lock state machine and message
handlers (`background.ts`), the account CRUD library (`lib/accounts.ts`),
the connected-site storage (`lib/storage.ts`), the content-script relay
(`content.ts`), and the page provider's pending-request tracking
(`inpage.ts`).  Each TypeScript function is embedded as an executable Lean
definition; asynchronous storage mutation becomes explicit state passing,
throwing functions return `Except String`.
-/

namespace MinaExt

/-- One HD-derived or imported identity (`Account` in `types.ts`):
derivation index, display name, public address, public key (hex). -/
structure Account where
  index : Int
  name : String
  address : String
  publicKeyHex : String
deriving Repr, DecidableEq

/-- The durable wallet record (`EncryptedWallet` in `types.ts`). -/
structure EncryptedWallet where
  encryptedMnemonic : String
  salt : String
  iv : String
  accounts : List Account
  activeAccountIndex : Int
deriving Repr, DecidableEq

/-- A durable grant of access from one origin (`ConnectedSite`). -/
structure ConnectedSite where
  origin : String
  name : String
  connectedAt : Nat
deriving Repr, DecidableEq

/-- A network entry.  Modelled from the spec: the repository's `types.ts`
(not under `src/`) defines the `NETWORKS` table; only the `id` field is
observable through the handlers modelled here. -/
structure Network where
  id : String
deriving Repr, DecidableEq

/-- Modelled from the spec: the `NETWORKS` table of `types.ts` keyed by
network identifier, with `mainnet` as the default entry. -/
def NETWORKS : List (String × Network) :=
  [("mainnet", ⟨"mainnet"⟩), ("devnet", ⟨"devnet"⟩)]

/-- A keypair as returned by the WASM module (`generateKeypair`).  The
cryptographic module is an external collaborator; handlers that need a
fresh keypair receive one as an explicit argument. -/
structure Keypair where
  address : String
  publicKeyHex : String
deriving Repr, DecidableEq

/-- The logical content of `chrome.storage.local` used by the wallet
(`lib/storage.ts`): encrypted wallet record, active network id,
connected-site list, last-activity timestamp. -/
structure Storage where
  encryptedWallet : Option EncryptedWallet := none
  activeNetworkId : Option String := none
  connectedSites : List ConnectedSite := []
  lastActivity : Option Nat := none
deriving Repr, DecidableEq

-- =============================================================================
-- lib/storage.ts
-- =============================================================================

/-- `hasWallet` from `lib/storage.ts`. -/
def hasWallet (st : Storage) : Bool :=
  st.encryptedWallet.isSome

/-- `lookupNetwork`: `NETWORKS[networkId]` as an option. -/
def lookupNetwork (id : String) : Option Network :=
  (NETWORKS.find? (fun p => p.1 == id)).map (·.2)

/-- `getActiveNetwork` from `lib/storage.ts`:
`NETWORKS[networkId ?? 'mainnet'] ?? NETWORKS.mainnet`. -/
def getActiveNetwork (st : Storage) : Network :=
  (lookupNetwork (st.activeNetworkId.getD "mainnet")).getD ⟨"mainnet"⟩

/-- `setActiveNetwork` from `lib/storage.ts`: throws on unknown ids. -/
def setActiveNetwork (st : Storage) (networkId : String) : Except String Storage :=
  if (lookupNetwork networkId).isSome then
    .ok { st with activeNetworkId := some networkId }
  else
    .error ("Unknown network: " ++ networkId)

/-- `getConnectedSites` from `lib/storage.ts`. -/
def getConnectedSites (st : Storage) : List ConnectedSite :=
  st.connectedSites

/-- `isSiteConnected` from `lib/storage.ts`. -/
def isSiteConnected (st : Storage) (origin : String) : Bool :=
  st.connectedSites.any (fun s => s.origin == origin)

/-- Helper for `addConnectedSite`: `sites.find(...)` followed by mutation
of the found entry updates the first entry with a matching origin. -/
def updateFirstSite (origin name : String) (now : Nat) : List ConnectedSite → List ConnectedSite
  | [] => []
  | s :: rest =>
    if s.origin == origin then { s with name := name, connectedAt := now } :: rest
    else s :: updateFirstSite origin name now rest

/-- `addConnectedSite` from `lib/storage.ts`: update the existing entry for
this origin, or push a new one. -/
def addConnectedSite (st : Storage) (origin name : String) (now : Nat) : Storage :=
  if st.connectedSites.any (fun s => s.origin == origin) then
    { st with connectedSites := updateFirstSite origin name now st.connectedSites }
  else
    { st with connectedSites := st.connectedSites ++ [⟨origin, name, now⟩] }

/-- `removeConnectedSite` from `lib/storage.ts`. -/
def removeConnectedSite (st : Storage) (origin : String) : Storage :=
  { st with connectedSites := st.connectedSites.filter (fun s => s.origin != origin) }

/-- `updateLastActivity` from `lib/storage.ts`. -/
def updateLastActivity (st : Storage) (now : Nat) : Storage :=
  { st with lastActivity := some now }

-- =============================================================================
-- lib/accounts.ts
-- =============================================================================

/-- `getAccounts` from `lib/accounts.ts`: `wallet?.accounts ?? []`. -/
def getAccounts (st : Storage) : List Account :=
  (st.encryptedWallet.map (·.accounts)).getD []

/-- `getActiveAccount` from `lib/accounts.ts`:
`wallet.accounts[wallet.activeAccountIndex] ?? wallet.accounts[0]`
(a positional array access; out-of-range or negative falls back to the
first element). -/
def getActiveAccount (st : Storage) : Option Account :=
  match st.encryptedWallet with
  | none => none
  | some w =>
    if w.accounts.length = 0 then none
    else
      match (if 0 ≤ w.activeAccountIndex then w.accounts.get? w.activeAccountIndex.toNat else none) with
      | some a => some a
      | none => w.accounts.get? 0

/-- `setActiveAccount` from `lib/accounts.ts`: throws when no wallet
exists or no account carries the requested derivation index. -/
def setActiveAccount (st : Storage) (accountIndex : Int) : Except String Storage :=
  match st.encryptedWallet with
  | none => .error "No wallet found"
  | some w =>
    if w.accounts.any (fun a => a.index == accountIndex) then
      .ok { st with encryptedWallet := some { w with activeAccountIndex := accountIndex } }
    else
      .error ("Account " ++ toString accountIndex ++ " not found")

/-- `wallet.accounts.reduce((max, a) => Math.max(max, a.index), -1)`. -/
def maxAccountIndex (accounts : List Account) : Int :=
  accounts.foldl (fun m a => max m a.index) (-1)

/-- `createAccount` from `lib/accounts.ts`: allocates index
`maxAccountIndex + 1`, appends the account, makes it active. -/
def createAccount (st : Storage) (kp : Keypair) (name : Option String) :
    Except String (Account × Storage) :=
  match st.encryptedWallet with
  | none => .error "No wallet found"
  | some w =>
    let newIndex := maxAccountIndex w.accounts + 1
    let account : Account :=
      { index := newIndex
        name := name.getD ("Account " ++ toString (newIndex + 1))
        address := kp.address
        publicKeyHex := kp.publicKeyHex }
    let w' := { w with accounts := w.accounts ++ [account], activeAccountIndex := newIndex }
    .ok (account, { st with encryptedWallet := some w' })

/-- Helper for `renameAccount`: `accounts.find(...)` followed by mutation
renames the first account with a matching index. -/
def renameFirst (accountIndex : Int) (newName : String) : List Account → List Account
  | [] => []
  | a :: rest =>
    if a.index == accountIndex then { a with name := newName } :: rest
    else a :: renameFirst accountIndex newName rest

/-- `renameAccount` from `lib/accounts.ts`. -/
def renameAccount (st : Storage) (accountIndex : Int) (newName : String) :
    Except String Storage :=
  match st.encryptedWallet with
  | none => .error "No wallet found"
  | some w =>
    if w.accounts.any (fun a => a.index == accountIndex) then
      .ok { st with encryptedWallet := some { w with accounts := renameFirst accountIndex newName w.accounts } }
    else
      .error ("Account " ++ toString accountIndex ++ " not found")

/-- Remove the first element satisfying `p`
(`findIndex` followed by `splice(idx, 1)` in `deleteAccount`). -/
def removeFirst (p : Account → Bool) : List Account → List Account
  | [] => []
  | a :: rest => if p a then rest else a :: removeFirst p rest

/-- `deleteAccount` from `lib/accounts.ts`: refuses when no wallet exists,
when at most one account remains, or when the index is unknown; otherwise
removes the account and, if it was active, reassigns the active pointer to
`accounts[0].index` of the remaining list (non-empty because at least two
accounts existed before the splice). -/
def deleteAccount (st : Storage) (accountIndex : Int) : Except String Storage :=
  match st.encryptedWallet with
  | none => .error "No wallet found"
  | some w =>
    if w.accounts.length ≤ 1 then .error "Cannot delete the last account"
    else if w.accounts.any (fun a => a.index == accountIndex) then
      let accounts' := removeFirst (fun a => a.index == accountIndex) w.accounts
      let active' :=
        if w.activeAccountIndex == accountIndex then
          (accounts'.headD { index := 0, name := "", address := "", publicKeyHex := "" }).index
        else w.activeAccountIndex
      .ok { st with encryptedWallet := some { w with accounts := accounts', activeAccountIndex := active' } }
    else
      .error ("Account " ++ toString accountIndex ++ " not found")

/-- `createWalletFromMnemonic` from `lib/accounts.ts`: stores the mnemonic
with placeholder salt/IV, derives the first account from a fresh keypair,
and silently replaces any existing wallet.  The password parameter is
unused by the current code. -/
def createWalletFromMnemonic (st : Storage) (kp : Keypair)
    (mnemonic : String) (_password : String) : Account × Storage :=
  let account : Account :=
    { index := 0, name := "Account 1", address := kp.address, publicKeyHex := kp.publicKeyHex }
  let wallet : EncryptedWallet :=
    { encryptedMnemonic := mnemonic
      salt := "placeholder-salt"
      iv := "placeholder-iv"
      accounts := [account]
      activeAccountIndex := 0 }
  (account, { st with encryptedWallet := some wallet })

/-- `importWalletFromMnemonic` from `lib/accounts.ts`: same as
`createWalletFromMnemonic` for now. -/
def importWalletFromMnemonic (st : Storage) (kp : Keypair)
    (mnemonic : String) (password : String) : Account × Storage :=
  createWalletFromMnemonic st kp mnemonic password

/-- `importAccountFromPrivateKey` from `lib/accounts.ts`, after the WASM
parse of the supplied private key succeeded with keypair `kp`: rejects a
duplicate address, otherwise allocates index `maxAccountIndex + 1`,
appends, and makes the new account active. -/
def importAccountFromPrivateKey (st : Storage) (kp : Keypair) (name : Option String) :
    Except String (Account × Storage) :=
  match st.encryptedWallet with
  | none => .error "No wallet found"
  | some w =>
    if w.accounts.any (fun a => a.address == kp.address) then
      .error "Account already exists"
    else
      let newIndex := maxAccountIndex w.accounts + 1
      let account : Account :=
        { index := newIndex
          name := name.getD ("Imported " ++ toString (newIndex + 1))
          address := kp.address
          publicKeyHex := kp.publicKeyHex }
      let w' := { w with accounts := w.accounts ++ [account], activeAccountIndex := newIndex }
      .ok (account, { st with encryptedWallet := some w' })

-- =============================================================================
-- background.ts — session state and message handlers
-- =============================================================================

/-- In-memory session state of the background service worker
(`isUnlocked` and `_decryptedMnemonic` in `background.ts`). -/
structure SessionState where
  isUnlocked : Bool
  decryptedMnemonic : Option String
deriving Repr, DecidableEq

/-- The session at service-worker start: locked, no decrypted material. -/
def initialSession : SessionState := { isUnlocked := false, decryptedMnemonic := none }

/-- The `BackgroundAction` message union dispatched by `handleMessage`. -/
inductive BackgroundAction where
  | hasWalletA
  | isLockedA
  | createWallet (mnemonic password : String)
  | importWallet (mnemonic password : String)
  | unlockWallet (password : String)
  | lockWallet
  | getAccountsA
  | getActiveAccountA
  | setActiveAccountA (index : Int)
  | createAccountA (name : Option String)
  | renameAccountA (index : Int) (name : String)
  | exportPrivateKey
  | getNetworkA
  | switchNetwork (networkId : String)
  | getConnectedSitesA
  | connectSite (origin name : String)
  | disconnectSite (origin : String)
  | isConnectedA (origin : String)
  | getBalanceA
  | getTransactions
  | sendPayment
  | sendDelegation
  | signMessage
  | signFields
  | unknownAction
deriving Repr, DecidableEq

/-- The response shapes `handleMessage` returns to the popup / content
script: `{success: false, error}` is `failure`, `{success: true, account}`
is `successAccount`, and so on. -/
inductive BgResponse where
  | hasWalletR (b : Bool)
  | isLockedR (b : Bool)
  | successAccount (account : Account)
  | successR
  | failure (error : String)
  | accountsR (accounts : List Account)
  | activeAccountR (account : Option Account)
  | networkR (network : Network)
  | sitesR (sites : List ConnectedSite)
  | connectedR (b : Bool)
  | balanceR (balance : String)
  | transactionsR
deriving Repr, DecidableEq

/-- `handleMessage` from `background.ts`.  `now` stands for `Date.now()`
(used by `updateLastActivity` and `addConnectedSite`); `kp` is the keypair
the WASM module would generate for wallet/account creation.  Thrown
errors from the library functions are caught at the dispatcher boundary
and converted to `{success: false, error}`, matching the `try/catch`. -/
def handleMessage (now : Nat) (kp : Keypair) (a : BackgroundAction)
    (ss : SessionState) (st : Storage) : BgResponse × SessionState × Storage :=
  let st := updateLastActivity st now
  match a with
  | .hasWalletA => (.hasWalletR (hasWallet st), ss, st)
  | .isLockedA => (.isLockedR (!ss.isUnlocked), ss, st)
  | .createWallet mnemonic password =>
    let (account, st') := createWalletFromMnemonic st kp mnemonic password
    (.successAccount account, { isUnlocked := true, decryptedMnemonic := some mnemonic }, st')
  | .importWallet mnemonic password =>
    let (account, st') := importWalletFromMnemonic st kp mnemonic password
    (.successAccount account, { isUnlocked := true, decryptedMnemonic := some mnemonic }, st')
  | .unlockWallet _password =>
    if !hasWallet st then (.failure "No wallet found", ss, st)
    else (.successR, { ss with isUnlocked := true }, st)
  | .lockWallet => (.successR, { isUnlocked := false, decryptedMnemonic := none }, st)
  | .getAccountsA => (.accountsR (getAccounts st), ss, st)
  | .getActiveAccountA => (.activeAccountR (getActiveAccount st), ss, st)
  | .setActiveAccountA index =>
    match setActiveAccount st index with
    | .ok st' => (.successR, ss, st')
    | .error e => (.failure e, ss, st)
  | .createAccountA name =>
    if !ss.isUnlocked then (.failure "Wallet is locked", ss, st)
    else
      match createAccount st kp name with
      | .ok (account, st') => (.successAccount account, ss, st')
      | .error e => (.failure e, ss, st)
  | .renameAccountA index name =>
    match renameAccount st index name with
    | .ok st' => (.successR, ss, st')
    | .error e => (.failure e, ss, st)
  | .exportPrivateKey =>
    if !ss.isUnlocked then (.failure "Wallet is locked", ss, st)
    else (.failure "Not implemented", ss, st)
  | .getNetworkA => (.networkR (getActiveNetwork st), ss, st)
  | .switchNetwork networkId =>
    match setActiveNetwork st networkId with
    | .ok st' => (.successR, ss, st')
    | .error e => (.failure e, ss, st)
  | .getConnectedSitesA => (.sitesR (getConnectedSites st), ss, st)
  | .connectSite origin name =>
    if !ss.isUnlocked then (.failure "Wallet is locked", ss, st)
    else (.successR, ss, addConnectedSite st origin name now)
  | .disconnectSite origin => (.successR, ss, removeConnectedSite st origin)
  | .isConnectedA origin => (.connectedR (isSiteConnected st origin), ss, st)
  | .getBalanceA => (.balanceR "0", ss, st)
  | .getTransactions => (.transactionsR, ss, st)
  | .sendPayment => (.failure "Not implemented", ss, st)
  | .sendDelegation => (.failure "Not implemented", ss, st)
  | .signMessage => (.failure "Not implemented", ss, st)
  | .signFields => (.failure "Not implemented", ss, st)
  | .unknownAction => (.failure "Unknown action", ss, st)

/-- External (page-originated) method names handled by
`handleExternalMessage`. -/
inductive ExternalAction where
  | minaRequestAccounts
  | minaAccounts
  | minaGetBalance
  | minaChainId
  | unknownMethod (action : String)
deriving Repr, DecidableEq

/-- Response shapes of the external dispatcher: `{error}`, `{accounts}`,
`{balance}`, `{chainId}`. -/
inductive ExtResponse where
  | errorR (error : String)
  | extAccountsR (accounts : List String)
  | extBalanceR (balance : String)
  | chainIdR (chainId : String)
deriving Repr, DecidableEq

/-- `handleExternalMessage` from `background.ts`: the authorization
boundary for requests arriving from web origins via the relay. -/
def handleExternalMessage (a : ExternalAction) (origin : String)
    (ss : SessionState) (st : Storage) : ExtResponse :=
  match a with
  | .minaRequestAccounts =>
    if !isSiteConnected st origin then .errorR "User rejected connection"
    else if !ss.isUnlocked then .errorR "Wallet is locked"
    else
      .extAccountsR (match getActiveAccount st with
                     | some account => [account.address]
                     | none => [])
  | .minaAccounts =>
    if !isSiteConnected st origin || !ss.isUnlocked then .extAccountsR []
    else
      .extAccountsR (match getActiveAccount st with
                     | some account => [account.address]
                     | none => [])
  | .minaGetBalance => .extBalanceR "0"
  | .minaChainId => .chainIdR (getActiveNetwork st).id
  | .unknownMethod action => .errorR ("Unknown method: " ++ action)

-- =============================================================================
-- background.ts — transition system over session and storage
-- =============================================================================

/-- One event the background service worker reacts to: an internal
message (with the ambient clock value and generated keypair), or a
service-worker restart (`chrome.runtime.onStartup`, which resets the
session to locked and clears the decrypted mnemonic). -/
inductive BgEvent where
  | msg (now : Nat) (kp : Keypair) (a : BackgroundAction)
  | restart

/-- The state transition induced by one background event. -/
def bgStep (s : SessionState × Storage) (e : BgEvent) : SessionState × Storage :=
  match e with
  | .msg now kp a => (handleMessage now kp a s.1 s.2).2
  | .restart => (initialSession, s.2)

/-- Run a sequence of background events from a state. -/
def runBg (s : SessionState × Storage) : List BgEvent → SessionState × Storage
  | [] => s
  | e :: es => runBg (bgStep s e) es

-- =============================================================================
-- inpage.ts — page provider pending-request tracking
-- =============================================================================

/-- The fixed per-request timeout armed by `MinaProvider.request`
(`setTimeout(..., 60000)`). -/
def providerTimeoutMs : Nat := 60000

/-- The observable state of the `MinaProvider`: the key set of its
`pendingRequests` map (the resolve/reject callbacks themselves are
modelled by the settlements the steps emit). -/
structure ProviderState where
  pending : List String
deriving Repr, DecidableEq

/-- One event delivered to the provider's message listener or timer:
a `MINA_PROVIDER_RESPONSE` envelope (with optional `result` and `error`
fields), a `MINA_PROVIDER_READY` envelope, an unrelated message, the
60-second timeout callback for an id, or a new `request()` call
registering a fresh id. -/
inductive PEvent where
  | response (id : String) (result : String) (error : Option String)
  | readyNotice
  | unrelated
  | timeoutFire (id : String)
  | newRequest (id : String)
deriving Repr, DecidableEq

/-- How one pending request's promise settles. -/
inductive Settlement where
  | resolvedS (id : String) (result : String)
  | rejectedErrS (id : String) (error : String)
  | rejectedTimeoutS (id : String)
deriving Repr, DecidableEq

/-- The id a settlement belongs to. -/
def Settlement.sid : Settlement → String
  | .resolvedS id _ => id
  | .rejectedErrS id _ => id
  | .rejectedTimeoutS id => id

/-- JavaScript truthiness of the envelope's `error` field
(`if (message.error)`): present and non-empty. -/
def errTruthy : Option String → Bool
  | none => false
  | some e => !e.isEmpty

/-- One step of the provider: from `setupMessageListener` (response and
ready envelopes, source-filtered messages), the timeout callback in
`request`, and the registration `pendingRequests.set(id, ...)` in
`request`.  Returns the new state, the settlements performed, and the
events emitted to local listeners. -/
def pstep (ps : ProviderState) (e : PEvent) :
    ProviderState × List Settlement × List String :=
  match e with
  | .response id result error =>
    if id ∈ ps.pending then
      ({ pending := ps.pending.filter (fun x => x != id) },
       [if errTruthy error then .rejectedErrS id (error.getD "") else .resolvedS id result],
       [])
    else (ps, [], [])
  | .readyNotice => (ps, [], ["ready"])
  | .unrelated => (ps, [], [])
  | .timeoutFire id =>
    if id ∈ ps.pending then
      ({ pending := ps.pending.filter (fun x => x != id) }, [.rejectedTimeoutS id], [])
    else (ps, [], [])
  | .newRequest id =>
    (if id ∈ ps.pending then ps else { pending := id :: ps.pending }, [], [])

/-- All settlements performed while processing a sequence of events. -/
def settlementsOf (ps : ProviderState) : List PEvent → List Settlement
  | [] => []
  | e :: es => (pstep ps e).2.1 ++ settlementsOf (pstep ps e).1 es

/-- The provider state after processing a sequence of events. -/
def runP (ps : ProviderState) : List PEvent → ProviderState
  | [] => ps
  | e :: es => runP (pstep ps e).1 es

/-- Number of settlements for a given id. -/
def countFor (id : String) (l : List Settlement) : Nat :=
  (l.filter (fun s => s.sid == id)).length

-- =============================================================================
-- content.ts — relay
-- =============================================================================

/-- A window message as seen by the relay's listener: a
`MINA_PROVIDER_REQUEST` envelope, or anything else (wrong type tag or
foreign source), which the relay ignores. -/
inductive PageMsg where
  | providerRequest (id : String) (method : String) (params : List (String × String))
  | otherMsg
deriving Repr, DecidableEq

/-- The message the relay forwards to the background script:
`{action: message.method, ...message.params}`. -/
structure CoreRequest where
  action : String
  params : List (String × String)
deriving Repr, DecidableEq

/-- Outcome of `chrome.runtime.sendMessage`: a reply from the wallet
core, or a thrown transport error. -/
inductive CoreReply where
  | ok (r : BgResponse)
  | errReply (e : String)
deriving Repr, DecidableEq

/-- A `MINA_PROVIDER_RESPONSE` envelope posted back into the page,
carrying either `result` or `error`, tagged with the correlation id. -/
inductive RelayOut where
  | respResult (id : String) (r : BgResponse)
  | respError (id : String) (e : String)
deriving Repr, DecidableEq

/-- The correlation id a relay response is tagged with. -/
def RelayOut.rid : RelayOut → String
  | .respResult id _ => id
  | .respError id _ => id

/-- The request the relay forwards for an accepted page message
(`none` when the message is not a provider request). -/
def relayForward : PageMsg → Option CoreRequest
  | .providerRequest _ method params => some ⟨method, params⟩
  | .otherMsg => none

/-- The relay's listener from `content.ts`: for a provider request it
posts exactly one response envelope — `{id, result}` when the internal
call returned, `{id, error}` when it threw; other messages are ignored. -/
def relayHandle : PageMsg → CoreReply → Option RelayOut
  | .providerRequest id _ _, .ok r => some (.respResult id r)
  | .providerRequest id _ _, .errReply e => some (.respError id e)
  | .otherMsg, _ => none

-- =============================================================================
-- Concrete fixtures
-- =============================================================================

/-- A concrete keypair standing for one WASM `generateKeypair` result. -/
def kpEx : Keypair := { address := "B62qExampleAddr", publicKeyHex := "00ff" }

/-- Empty storage: fresh profile, no wallet, no connected sites. -/
def stEmpty : Storage := {}

/-- Storage after `createWallet` with password `"correct-password"`. -/
def stWithWallet : Storage :=
  (handleMessage 0 kpEx (.createWallet "abandon ability able" "correct-password")
    initialSession stEmpty).2.2

/-- The wallet record `stWithWallet` holds. -/
def wEx : EncryptedWallet :=
  { encryptedMnemonic := "abandon ability able"
    salt := "placeholder-salt"
    iv := "placeholder-iv"
    accounts := [{ index := 0, name := "Account 1", address := kpEx.address,
                   publicKeyHex := kpEx.publicKeyHex }]
    activeAccountIndex := 0 }

-- =============================================================================
-- C1 — unlock requires an existing wallet and a verifying password
-- =============================================================================

/-- C1: the claim says `unlockWallet` moves `Locked → Unlocked` only when
the wallet exists AND the supplied password verifies against the stored
derivation.  The code never verifies the password (`createWalletFromMnemonic`
discards it and `unlockWallet` only checks `hasWallet`): with a wallet
created under `"correct-password"`, unlocking with `"wrong-password"`
returns `{success: true}` and sets the session to Unlocked. -/
theorem unlockWallet_accepts_any_password :
    (handleMessage 1 kpEx (.unlockWallet "wrong-password") initialSession stWithWallet).1
      = .successR
    ∧ (handleMessage 1 kpEx (.unlockWallet "wrong-password") initialSession stWithWallet).2.1.isUnlocked
      = true
    ∧ (handleMessage 1 kpEx (.unlockWallet "any") initialSession stEmpty).1
      = .failure "No wallet found" :=
  ⟨rfl, rfl, rfl⟩

-- =============================================================================
-- C3 — lock gating of sensitive operations
-- =============================================================================

/-- C3 counterexample: the claim says every gated operation — including
message signing — returns a "wallet is locked" failure when called while
Locked.  `signMessage` while Locked returns `{success: false, error: "Not
implemented"}` instead, and that is not the lock error. -/
theorem signMessage_locked_is_not_lock_error :
    (handleMessage 0 kpEx .signMessage initialSession stWithWallet).1
      = .failure "Not implemented"
    ∧ (handleMessage 0 kpEx .signMessage initialSession stWithWallet).1
      ≠ .failure "Wallet is locked" := by
  refine ⟨rfl, ?_⟩
  decide

/-- C3 amended: while Locked, account creation, site-connection approval
and private-key export fail with `"Wallet is locked"`; the transaction-
and message/field-signing placeholders instead fail with
`"Not implemented"` regardless of the lock state. -/
theorem locked_gates_report_lock (now : Nat) (kp : Keypair) (ss : SessionState)
    (st : Storage) (h : ss.isUnlocked = false) :
    (∀ name, (handleMessage now kp (.createAccountA name) ss st).1 = .failure "Wallet is locked")
    ∧ (∀ origin sname,
        (handleMessage now kp (.connectSite origin sname) ss st).1 = .failure "Wallet is locked")
    ∧ (handleMessage now kp .exportPrivateKey ss st).1 = .failure "Wallet is locked"
    ∧ (handleMessage now kp .sendPayment ss st).1 = .failure "Not implemented"
    ∧ (handleMessage now kp .sendDelegation ss st).1 = .failure "Not implemented"
    ∧ (handleMessage now kp .signMessage ss st).1 = .failure "Not implemented"
    ∧ (handleMessage now kp .signFields ss st).1 = .failure "Not implemented" := by
  refine ⟨?_, ?_, ?_, rfl, rfl, rfl, rfl⟩ <;>
    intros <;> simp [handleMessage, h]

/-- C3 amended witness at a concrete locked state. -/
theorem locked_gates_report_lock_witness :
    initialSession.isUnlocked = false
    ∧ (handleMessage 0 kpEx (.createAccountA none) initialSession stEmpty).1
        = .failure "Wallet is locked" :=
  ⟨rfl, (locked_gates_report_lock 0 kpEx initialSession stEmpty rfl).1 none⟩

-- =============================================================================
-- C4 — mina_requestAccounts never discloses accounts to unconnected origins
-- =============================================================================

/-- C4: for an origin with no ConnectedSite entry, `mina_requestAccounts`
returns the `"User rejected connection"` error in every session state and
never an accounts result. -/
theorem requestAccounts_unconnected_rejected (origin : String) (ss : SessionState)
    (st : Storage) (h : isSiteConnected st origin = false) :
    handleExternalMessage .minaRequestAccounts origin ss st = .errorR "User rejected connection"
    ∧ ∀ l, handleExternalMessage .minaRequestAccounts origin ss st ≠ .extAccountsR l := by
  have heq : handleExternalMessage .minaRequestAccounts origin ss st
      = .errorR "User rejected connection" := by
    simp [handleExternalMessage, h]
  refine ⟨heq, fun l hl => ?_⟩
  rw [heq] at hl
  exact ExtResponse.noConfusion hl

/-- C4 witness: a fresh profile has no connected sites, and an unlocked
session still gets the rejection. -/
theorem requestAccounts_unconnected_rejected_witness :
    isSiteConnected stWithWallet "https://example.com" = false
    ∧ handleExternalMessage .minaRequestAccounts "https://example.com"
        { isUnlocked := true, decryptedMnemonic := some "m" } stWithWallet
      = .errorR "User rejected connection" :=
  ⟨rfl, (requestAccounts_unconnected_rejected "https://example.com"
      { isUnlocked := true, decryptedMnemonic := some "m" } stWithWallet rfl).1⟩

-- =============================================================================
-- C5 — mina_accounts is neutral for unconnected origins
-- =============================================================================

/-- C5: for an origin with no ConnectedSite entry, `mina_accounts`
returns `{accounts: []}` in every session state, and never an error
result. -/
theorem accounts_unconnected_empty (origin : String) (ss : SessionState)
    (st : Storage) (h : isSiteConnected st origin = false) :
    handleExternalMessage .minaAccounts origin ss st = .extAccountsR []
    ∧ ∀ e, handleExternalMessage .minaAccounts origin ss st ≠ .errorR e := by
  have heq : handleExternalMessage .minaAccounts origin ss st = .extAccountsR [] := by
    simp [handleExternalMessage, h]
  refine ⟨heq, fun e he => ?_⟩
  rw [heq] at he
  exact ExtResponse.noConfusion he

/-- C5 witness: unconnected origin, unlocked session with a wallet. -/
theorem accounts_unconnected_empty_witness :
    isSiteConnected stWithWallet "https://dapp.example" = false
    ∧ handleExternalMessage .minaAccounts "https://dapp.example"
        { isUnlocked := true, decryptedMnemonic := some "m" } stWithWallet
      = .extAccountsR [] :=
  ⟨rfl, (accounts_unconnected_empty "https://dapp.example"
      { isUnlocked := true, decryptedMnemonic := some "m" } stWithWallet rfl).1⟩

-- =============================================================================
-- C7 — the relay answers every accepted request exactly once
-- =============================================================================

/-- C7: for every `REQUEST` envelope the relay accepts, it forwards
`{action: method, ...params}` to the wallet core and posts back exactly
one `RESPONSE` envelope tagged with the original correlation id — the
core's reply as `result` on success, a synthesized `error` when the
internal call threw.  The request is never dropped. -/
theorem relay_always_responds (id method : String) (params : List (String × String))
    (reply : CoreReply) :
    relayForward (.providerRequest id method params) = some ⟨method, params⟩
    ∧ relayHandle (.providerRequest id method params) reply
        = some (match reply with
                | .ok r => .respResult id r
                | .errReply e => .respError id e)
    ∧ (relayHandle (.providerRequest id method params) reply).map RelayOut.rid = some id := by
  cases reply <;> exact ⟨rfl, rfl, rfl⟩

-- =============================================================================
-- C8 — responses with unknown ids are inert
-- =============================================================================

/-- C8: a `MINA_PROVIDER_RESPONSE` envelope whose id is not in the
pending map changes nothing: the state is unchanged, no settlement
happens, and no event is emitted. -/
theorem unknown_id_no_effect (ps : ProviderState) (id : String) (result : String)
    (error : Option String) (h : id ∉ ps.pending) :
    pstep ps (.response id result error) = (ps, [], []) := by
  simp [pstep, h]

/-- C8 witness: an unknown id against a one-entry pending map. -/
theorem unknown_id_no_effect_witness :
    ("ghost" ∉ (⟨["req-1"]⟩ : ProviderState).pending)
    ∧ pstep ⟨["req-1"]⟩ (.response "ghost" "r" none) = (⟨["req-1"]⟩, [], []) :=
  ⟨by decide, unknown_id_no_effect ⟨["req-1"]⟩ "ghost" "r" none (by decide)⟩

-- =============================================================================
-- C2 — no decrypted material while locked
-- =============================================================================

/-- Every background transition preserves "locked implies no decrypted
mnemonic in memory". -/
theorem bgStep_preserves_locked_no_secret (s : SessionState × Storage) (e : BgEvent)
    (h : s.1.isUnlocked = false → s.1.decryptedMnemonic = none) :
    (bgStep s e).1.isUnlocked = false → (bgStep s e).1.decryptedMnemonic = none := by
  cases e with
  | restart => intro _; rfl
  | msg now kp a =>
    cases a <;> (
      simp only [bgStep, handleMessage]
      repeat' split
      all_goals intro hF
      all_goals first
        | exact h hF
        | rfl
        | trivial)

/-- The invariant holds along every run that starts in a state
satisfying it. -/
theorem runBg_preserves_locked_no_secret (s : SessionState × Storage) (es : List BgEvent)
    (h : s.1.isUnlocked = false → s.1.decryptedMnemonic = none) :
    (runBg s es).1.isUnlocked = false → (runBg s es).1.decryptedMnemonic = none := by
  induction es generalizing s with
  | nil => exact h
  | cons e es ih => exact ih (bgStep s e) (bgStep_preserves_locked_no_secret s e h)

/-- C2: in every state reachable from service start, a locked session
holds no decrypted mnemonic; `lockWallet` and a service-worker restart
reset the session to Locked with the mnemonic cleared in the same step;
and the invariant is preserved by every message-handler transition. -/
theorem locked_implies_no_secret (st0 : Storage) (es : List BgEvent) :
    ((runBg (initialSession, st0) es).1.isUnlocked = false →
      (runBg (initialSession, st0) es).1.decryptedMnemonic = none)
    ∧ (∀ (now : Nat) (kp : Keypair) (ss : SessionState) (st : Storage),
        (handleMessage now kp .lockWallet ss st).2.1 = initialSession)
    ∧ (∀ s : SessionState × Storage, (bgStep s .restart).1 = initialSession)
    ∧ (∀ (s : SessionState × Storage) (e : BgEvent),
        (s.1.isUnlocked = false → s.1.decryptedMnemonic = none) →
        ((bgStep s e).1.isUnlocked = false → (bgStep s e).1.decryptedMnemonic = none)) :=
  ⟨runBg_preserves_locked_no_secret (initialSession, st0) es (fun _ => rfl),
   fun _ _ _ _ => rfl,
   fun _ => rfl,
   bgStep_preserves_locked_no_secret⟩

/-- C2 witness: create a wallet (which loads the mnemonic), lock it; the
final state is locked and the mnemonic is gone. -/
theorem locked_implies_no_secret_witness :
    (runBg (initialSession, stEmpty)
        [BgEvent.msg 0 kpEx (.createWallet "m" "p"), BgEvent.msg 1 kpEx .lockWallet]).1.decryptedMnemonic
      = none :=
  (locked_implies_no_secret stEmpty
      [BgEvent.msg 0 kpEx (.createWallet "m" "p"), BgEvent.msg 1 kpEx .lockWallet]).1 rfl

-- =============================================================================
-- C9 — fresh, monotonically increasing derivation indices
-- =============================================================================

/-- The fold's accumulator never decreases. -/
theorem le_foldl_max (init : Int) (l : List Account) :
    init ≤ l.foldl (fun m a => max m a.index) init := by
  induction l generalizing init with
  | nil => exact le_refl init
  | cons b l ih => exact le_trans (le_max_left init b.index) (ih (max init b.index))

/-- Every member's index is bounded by the fold. -/
theorem mem_le_foldl_max (a : Account) :
    ∀ (l : List Account) (init : Int), a ∈ l →
      a.index ≤ l.foldl (fun m b => max m b.index) init := by
  intro l
  induction l with
  | nil => intro init ha; cases ha
  | cons b l ih =>
    intro init ha
    rcases List.mem_cons.1 ha with hb | hl
    · subst hb
      exact le_trans (le_max_right init a.index) (le_foldl_max (max init a.index) l)
    · exact ih (max init b.index) hl

/-- Every existing account's index is at most `maxAccountIndex`. -/
theorem mem_le_maxAccountIndex (l : List Account) (a : Account) (ha : a ∈ l) :
    a.index ≤ maxAccountIndex l :=
  mem_le_foldl_max a l (-1) ha

/-- Appending an account whose index exceeds all existing indices keeps
the index list duplicate-free. -/
theorem nodup_append_fresh (l : List Account) (acc : Account)
    (hfresh : ∀ a ∈ l, a.index < acc.index)
    (hnd : (l.map (·.index)).Nodup) : ((l ++ [acc]).map (·.index)).Nodup := by
  rw [List.map_append, List.nodup_append]
  refine ⟨hnd, List.nodup_singleton _, ?_⟩
  intro i hi hj
  rcases List.mem_map.1 hi with ⟨a, ha, rfl⟩
  rcases List.mem_singleton.1 hj with h
  exact absurd h (ne_of_lt (hfresh a ha))

/-- C9: a successful `createAccount` allocates derivation index
`maxAccountIndex + 1`, strictly greater than every index already present,
appends the account and makes it active; `importAccountFromPrivateKey`
allocates the same way.  Hence pairwise-distinct indices are preserved
and allocation is monotone. -/
theorem createAccount_fresh_index (st : Storage) (w : EncryptedWallet) (kp : Keypair)
    (name : Option String) (hw : st.encryptedWallet = some w) :
    ((createAccount st kp name).isOk = true)
    ∧ (∀ acc st', createAccount st kp name = .ok (acc, st') →
        acc.index = maxAccountIndex w.accounts + 1
        ∧ (∀ a ∈ w.accounts, a.index < acc.index)
        ∧ st'.encryptedWallet
            = some { w with accounts := w.accounts ++ [acc], activeAccountIndex := acc.index }
        ∧ ((w.accounts.map (·.index)).Nodup → ((w.accounts ++ [acc]).map (·.index)).Nodup))
    ∧ (∀ acc st', importAccountFromPrivateKey st kp name = .ok (acc, st') →
        acc.index = maxAccountIndex w.accounts + 1
        ∧ (∀ a ∈ w.accounts, a.index < acc.index)
        ∧ ((w.accounts.map (·.index)).Nodup → ((w.accounts ++ [acc]).map (·.index)).Nodup)) := by
  have hfresh : ∀ a ∈ w.accounts, a.index < maxAccountIndex w.accounts + 1 := fun a ha =>
    lt_of_le_of_lt (mem_le_maxAccountIndex w.accounts a ha) (lt_add_one _)
  refine ⟨?_, ?_, ?_⟩
  · simp [createAccount, hw, Except.isOk, Except.toBool]
  · intro acc st' hok
    simp only [createAccount, hw] at hok
    obtain ⟨hA, hS⟩ := Prod.mk.inj (Except.ok.inj hok)
    subst hA
    subst hS
    exact ⟨rfl, hfresh, rfl, nodup_append_fresh _ _ hfresh⟩
  · intro acc st' hok
    simp only [importAccountFromPrivateKey, hw] at hok
    by_cases hdup : w.accounts.any (fun a => a.address == kp.address)
    · simp [hdup] at hok
    · simp only [hdup, Bool.false_eq_true, if_false] at hok
      obtain ⟨hA, hS⟩ := Prod.mk.inj (Except.ok.inj hok)
      subst hA
      subst hS
      exact ⟨rfl, hfresh, nodup_append_fresh _ _ hfresh⟩

/-- The account `createAccount` produces on the one-account fixture. -/
def accEx2 : Account :=
  { index := 1, name := "Account 2", address := kpEx.address, publicKeyHex := kpEx.publicKeyHex }

/-- The storage `createAccount` produces on the one-account fixture. -/
def stAfterCreate : Storage :=
  { stWithWallet with
    encryptedWallet := some { wEx with accounts := wEx.accounts ++ [accEx2], activeAccountIndex := 1 } }

/-- C9 witness: creating an account on the one-account fixture yields
index 1 = maxAccountIndex + 1. -/
theorem createAccount_fresh_index_witness :
    stWithWallet.encryptedWallet = some wEx
    ∧ createAccount stWithWallet kpEx none = .ok (accEx2, stAfterCreate)
    ∧ (accEx2.index = maxAccountIndex wEx.accounts + 1
       ∧ (∀ a ∈ wEx.accounts, a.index < accEx2.index)
       ∧ stAfterCreate.encryptedWallet
           = some { wEx with accounts := wEx.accounts ++ [accEx2], activeAccountIndex := accEx2.index }
       ∧ ((wEx.accounts.map (·.index)).Nodup → ((wEx.accounts ++ [accEx2]).map (·.index)).Nodup)) :=
  ⟨rfl, rfl, (createAccount_fresh_index stWithWallet wEx kpEx none rfl).2.1 accEx2 stAfterCreate rfl⟩

-- =============================================================================
-- C10 — deleteAccount never empties the wallet or dangles the pointer
-- =============================================================================

/-- Removing the first match shortens the list by exactly one when a
match exists. -/
theorem removeFirst_length (p : Account → Bool) :
    ∀ l : List Account, l.any p = true → (removeFirst p l).length + 1 = l.length := by
  intro l
  induction l with
  | nil => intro h; cases h
  | cons b l ih =>
    intro h
    by_cases hb : p b = true
    · simp [removeFirst, hb]
    · have hl : l.any p = true := by
        rcases List.any_eq_true.1 h with ⟨x, hx, hpx⟩
        rcases List.mem_cons.1 hx with rfl | hxl
        · exact absurd hpx hb
        · exact List.any_eq_true.2 ⟨x, hxl, hpx⟩
      have hrec := ih hl
      simp only [removeFirst, hb, Bool.false_eq_true, if_false, List.length_cons]
      omega

/-- An element that does not satisfy the predicate survives the removal
of the first match. -/
theorem mem_removeFirst_of_neg (p : Account → Bool) (a : Account) :
    ∀ l : List Account, a ∈ l → p a = false → a ∈ removeFirst p l := by
  intro l
  induction l with
  | nil => intro ha _; cases ha
  | cons b l ih =>
    intro ha hpa
    by_cases hb : p b = true
    · rcases List.mem_cons.1 ha with rfl | hl
      · rw [hpa] at hb; cases hb
      · simpa [removeFirst, hb] using hl
    · rcases List.mem_cons.1 ha with rfl | hl
      · simp [removeFirst, hb]
      · simp only [removeFirst, hb, Bool.false_eq_true, if_false, List.mem_cons]
        exact Or.inr (ih hl hpa)

/-- `headD` of a non-empty list is a member. -/
theorem headD_mem (l : List Account) (d : Account) (h : l ≠ []) : l.headD d ∈ l := by
  cases l with
  | nil => exact absurd rfl h
  | cons b l => simp [List.headD]

/-- C10: `deleteAccount` fails (and writes nothing) when no wallet
exists, when only one account remains, or when the index is unknown; on
every success the remaining account list is non-empty and, provided the
active pointer referred to a present account before, it still does after
(reassigned to the first remaining account when the deleted one was
active). -/
theorem deleteAccount_safe (st : Storage) (i : Int) :
    (st.encryptedWallet = none → deleteAccount st i = .error "No wallet found")
    ∧ (∀ w, st.encryptedWallet = some w → w.accounts.length = 1 →
        deleteAccount st i = .error "Cannot delete the last account")
    ∧ (∀ w, st.encryptedWallet = some w → 1 < w.accounts.length →
        (∀ a ∈ w.accounts, ¬(a.index = i)) →
        deleteAccount st i = .error ("Account " ++ toString i ++ " not found"))
    ∧ (∀ st', deleteAccount st i = .ok st' →
        ∃ w w', st.encryptedWallet = some w ∧ st'.encryptedWallet = some w'
          ∧ w'.accounts ≠ []
          ∧ (w.activeAccountIndex ∈ w.accounts.map (·.index) →
              w'.activeAccountIndex ∈ w'.accounts.map (·.index))) := by
  refine ⟨?_, ?_, ?_, ?_⟩
  · intro h
    simp [deleteAccount, h]
  · intro w hw hlen
    simp [deleteAccount, hw, hlen]
  · intro w hw hgt hnone
    have hle : ¬(w.accounts.length ≤ 1) := by omega
    have hany : w.accounts.any (fun a => a.index == i) = false := by
      apply List.any_eq_false.2
      intro a ha
      simp only [beq_iff_eq]
      exact hnone a ha
    simp [deleteAccount, hw, hle, hany]
  · intro st' hok
    rcases hwe : st.encryptedWallet with _ | w
    · simp only [deleteAccount, hwe] at hok
      exact absurd hok (by simp)
    · simp only [deleteAccount, hwe] at hok
      split at hok
      · exact absurd hok (by simp)
      next hle =>
        split at hok
        next hany =>
          have hst := Except.ok.inj hok
          subst hst
          have hlen := removeFirst_length (fun a => a.index == i) w.accounts hany
          have hne : removeFirst (fun a => a.index == i) w.accounts ≠ [] := by
            have : 0 < (removeFirst (fun a => a.index == i) w.accounts).length := by omega
            exact List.length_pos.1 this
          refine ⟨w, _, rfl, rfl, hne, ?_⟩
          intro hmem
          by_cases hact : (w.activeAccountIndex == i) = true
          · rw [if_pos hact]
            exact List.mem_map.2
              ⟨_, headD_mem _ { index := 0, name := "", address := "", publicKeyHex := "" } hne, rfl⟩
          · rw [if_neg hact]
            rcases List.mem_map.1 hmem with ⟨a, ha, haeq⟩
            have hai : (a.index == i) = false := by
              apply beq_eq_false_iff_ne.2
              intro hcontra
              exact hact (beq_iff_eq.2 (haeq ▸ hcontra))
            exact List.mem_map.2 ⟨a, mem_removeFirst_of_neg _ a w.accounts ha hai, haeq⟩
        next hany => exact absurd hok (by simp)

/-- A two-account wallet fixture. -/
def stTwo : Storage :=
  { encryptedWallet := some
      { encryptedMnemonic := "m", salt := "s", iv := "iv",
        accounts := [{ index := 0, name := "A", address := "addr0", publicKeyHex := "00" },
                     { index := 1, name := "B", address := "addr1", publicKeyHex := "01" }],
        activeAccountIndex := 0 } }

/-- The storage after deleting the active account 0 from `stTwo`. -/
def stTwoDel : Storage :=
  { encryptedWallet := some
      { encryptedMnemonic := "m", salt := "s", iv := "iv",
        accounts := [{ index := 1, name := "B", address := "addr1", publicKeyHex := "01" }],
        activeAccountIndex := 1 } }

/-- C10 witness: deleting the active account of a two-account wallet
succeeds, leaves one account, and repoints the active index to it. -/
theorem deleteAccount_safe_witness :
    deleteAccount stTwo 0 = .ok stTwoDel
    ∧ (∃ w w', stTwo.encryptedWallet = some w ∧ stTwoDel.encryptedWallet = some w'
        ∧ w'.accounts ≠ []
        ∧ (w.activeAccountIndex ∈ w.accounts.map (·.index) →
            w'.activeAccountIndex ∈ w'.accounts.map (·.index))) :=
  ⟨rfl, (deleteAccount_safe stTwo 0).2.2.2 stTwoDel rfl⟩

-- =============================================================================
-- C6 — each request settles exactly once and is removed at settlement
-- =============================================================================

/-- `countFor` distributes over append. -/
theorem countFor_append (id : String) (l1 l2 : List Settlement) :
    countFor id (l1 ++ l2) = countFor id l1 + countFor id l2 := by
  simp [countFor, List.filter_append]

/-- `countFor` on a singleton. -/
theorem countFor_singleton (id : String) (s : Settlement) :
    countFor id [s] = if s.sid == id then 1 else 0 := by
  by_cases h : (s.sid == id) = true <;> simp [countFor, List.filter, h]

/-- The settlement a response step performs is tagged with the envelope's
id. -/
theorem response_settlement_sid (id' result : String) (error : Option String) :
    (if errTruthy error then Settlement.rejectedErrS id' (error.getD "")
     else Settlement.resolvedS id' result).sid = id' := by
  by_cases h : errTruthy error = true <;> simp [h, Settlement.sid]

/-- A step never settles an id that is not pending, and cannot make it
pending unless the event is a new `request()` for that very id. -/
theorem pstep_absent (ps : ProviderState) (e : PEvent) (id : String)
    (hnp : id ∉ ps.pending) (hne : e ≠ .newRequest id) :
    id ∉ (pstep ps e).1.pending ∧ countFor id (pstep ps e).2.1 = 0 := by
  cases e with
  | response id' result error =>
    by_cases hm : id' ∈ ps.pending
    · have hid : id' ≠ id := fun h => hnp (h ▸ hm)
      simp only [pstep, hm, if_true]
      constructor
      · intro hmem
        exact hnp (List.mem_filter.1 hmem).1
      · rw [countFor_singleton, response_settlement_sid]
        simp [hid]
    · exact ⟨by simpa [pstep, hm] using hnp, by simp [pstep, hm, countFor]⟩
  | readyNotice => exact ⟨hnp, by simp [pstep, countFor]⟩
  | unrelated => exact ⟨hnp, by simp [pstep, countFor]⟩
  | timeoutFire id' =>
    by_cases hm : id' ∈ ps.pending
    · have hid : id' ≠ id := fun h => hnp (h ▸ hm)
      simp only [pstep, hm, if_true]
      constructor
      · intro hmem
        exact hnp (List.mem_filter.1 hmem).1
      · rw [countFor_singleton]
        simp [Settlement.sid, hid]
    · exact ⟨by simpa [pstep, hm] using hnp, by simp [pstep, hm, countFor]⟩
  | newRequest id' =>
    have hid : id' ≠ id := fun h => hne (h ▸ rfl)
    constructor
    · by_cases hm : id' ∈ ps.pending
      · simpa [pstep, hm] using hnp
      · simp only [pstep, hm, if_false]
        intro hmem
        rcases List.mem_cons.1 hmem with h | h
        · exact hid h.symm
        · exact hnp h
    · by_cases hm : id' ∈ ps.pending <;> simp [pstep, hm, countFor]

/-- A step that settles an id removes it from the pending set, and it
must have been pending before. -/
theorem pstep_settles_removes (ps : ProviderState) (e : PEvent) (id : String)
    (h : countFor id (pstep ps e).2.1 ≠ 0) :
    id ∈ ps.pending ∧ id ∉ (pstep ps e).1.pending := by
  cases e with
  | response id' result error =>
    by_cases hm : id' ∈ ps.pending
    · simp only [pstep, hm, if_true] at h ⊢
      rw [countFor_singleton, response_settlement_sid] at h
      by_cases hid : (id' == id) = true
      · have : id' = id := beq_iff_eq.1 hid
        subst this
        refine ⟨hm, fun hmem => ?_⟩
        have := (List.mem_filter.1 hmem).2
        simp at this
      · simp [hid] at h
    · simp [pstep, hm, countFor] at h
  | readyNotice => simp [pstep, countFor] at h
  | unrelated => simp [pstep, countFor] at h
  | timeoutFire id' =>
    by_cases hm : id' ∈ ps.pending
    · simp only [pstep, hm, if_true] at h ⊢
      rw [countFor_singleton] at h
      by_cases hid : (Settlement.sid (.rejectedTimeoutS id') == id) = true
      · have : id' = id := beq_iff_eq.1 hid
        subst this
        refine ⟨hm, fun hmem => ?_⟩
        have := (List.mem_filter.1 hmem).2
        simp at this
      · simp [hid] at h
    · simp [pstep, hm, countFor] at h
  | newRequest id' =>
    by_cases hm : id' ∈ ps.pending <;> simp [pstep, hm, countFor] at h

/-- A step that does not settle a pending id keeps it pending. -/
theorem pstep_keeps_pending (ps : ProviderState) (e : PEvent) (id : String)
    (hp : id ∈ ps.pending) (hs : countFor id (pstep ps e).2.1 = 0) :
    id ∈ (pstep ps e).1.pending := by
  cases e with
  | response id' result error =>
    by_cases hm : id' ∈ ps.pending
    · simp only [pstep, hm, if_true] at hs ⊢
      rw [countFor_singleton, response_settlement_sid] at hs
      by_cases hid : (id' == id) = true
      · simp [hid] at hs
      · refine List.mem_filter.2 ⟨hp, ?_⟩
        simp only [bne_iff_ne, ne_eq]
        intro h
        exact hid (beq_iff_eq.2 h.symm)
    · simpa [pstep, hm] using hp
  | readyNotice => simpa [pstep] using hp
  | unrelated => simpa [pstep] using hp
  | timeoutFire id' =>
    by_cases hm : id' ∈ ps.pending
    · simp only [pstep, hm, if_true] at hs ⊢
      rw [countFor_singleton] at hs
      by_cases hid : (Settlement.sid (.rejectedTimeoutS id') == id) = true
      · simp [hid] at hs
      · refine List.mem_filter.2 ⟨hp, ?_⟩
        simp only [Settlement.sid] at hid
        simp only [bne_iff_ne, ne_eq]
        intro h
        exact hid (beq_iff_eq.2 h.symm)
    · simpa [pstep, hm] using hp
  | newRequest id' =>
    by_cases hm : id' ∈ ps.pending
    · simpa [pstep, hm] using hp
    · simp only [pstep, hm, if_false]
      exact List.mem_cons.2 (Or.inr hp)

/-- `countFor` of a singleton is at most one. -/
theorem countFor_singleton_le (id : String) (s : Settlement) : countFor id [s] ≤ 1 := by
  rw [countFor_singleton]
  by_cases h : (s.sid == id) = true <;> simp [h]

/-- Each step performs at most one settlement. -/
theorem pstep_count_le_one (ps : ProviderState) (e : PEvent) (id : String) :
    countFor id (pstep ps e).2.1 ≤ 1 := by
  cases e with
  | response id' result error =>
    by_cases hm : id' ∈ ps.pending
    · simp only [pstep, hm, if_true]
      exact countFor_singleton_le id _
    · simp [pstep, hm, countFor]
  | readyNotice => simp [pstep, countFor]
  | unrelated => simp [pstep, countFor]
  | timeoutFire id' =>
    by_cases hm : id' ∈ ps.pending
    · simp only [pstep, hm, if_true]
      exact countFor_singleton_le id _
    · simp [pstep, hm, countFor]
  | newRequest id' =>
    by_cases hm : id' ∈ ps.pending <;> simp [pstep, hm, countFor]

/-- An id that is not pending is never settled along a trace free of new
requests for it. -/
theorem count_zero_of_not_pending (id : String) :
    ∀ (es : List PEvent) (ps : ProviderState), id ∉ ps.pending →
      (∀ e ∈ es, e ≠ PEvent.newRequest id) →
      countFor id (settlementsOf ps es) = 0 := by
  intro es
  induction es with
  | nil => intro ps _ _; simp [settlementsOf, countFor]
  | cons e es ih =>
    intro ps hnp hnr
    have habs := pstep_absent ps e id hnp (hnr e (List.mem_cons_self e es))
    simp only [settlementsOf, countFor_append, habs.2, Nat.zero_add]
    exact ih (pstep ps e).1 habs.1 (fun x hx => hnr x (List.mem_cons_of_mem e hx))

/-- Along a trace free of new requests for an id, the id settles at most
once. -/
theorem count_le_one_trace (id : String) :
    ∀ (es : List PEvent) (ps : ProviderState),
      (∀ e ∈ es, e ≠ PEvent.newRequest id) →
      countFor id (settlementsOf ps es) ≤ 1 := by
  intro es
  induction es with
  | nil => intro ps _; simp [settlementsOf, countFor]
  | cons e es ih =>
    intro ps hnr
    have htail : ∀ x ∈ es, x ≠ PEvent.newRequest id :=
      fun x hx => hnr x (List.mem_cons_of_mem e hx)
    simp only [settlementsOf, countFor_append]
    by_cases h0 : countFor id (pstep ps e).2.1 = 0
    · rw [h0]
      simpa using ih (pstep ps e).1 htail
    · have hrm := pstep_settles_removes ps e id h0
      have hrest := count_zero_of_not_pending id es (pstep ps e).1 hrm.2 htail
      have hone := pstep_count_le_one ps e id
      omega

/-- A pending id for which the armed timeout eventually fires settles at
least once. -/
theorem count_ge_one_of_timeout (id : String) :
    ∀ (es : List PEvent) (ps : ProviderState), id ∈ ps.pending →
      PEvent.timeoutFire id ∈ es →
      1 ≤ countFor id (settlementsOf ps es) := by
  intro es
  induction es with
  | nil => intro ps _ ht; cases ht
  | cons e es ih =>
    intro ps hp ht
    simp only [settlementsOf, countFor_append]
    by_cases h0 : countFor id (pstep ps e).2.1 = 0
    · have hkeep := pstep_keeps_pending ps e id hp h0
      have hte : PEvent.timeoutFire id ∈ es := by
        rcases List.mem_cons.1 ht with heq | h
        · exfalso
          rw [← heq] at h0
          have h1 : countFor id (pstep ps (PEvent.timeoutFire id)).2.1 = 1 := by
            simp only [pstep, hp, if_true]
            rw [countFor_singleton]
            simp [Settlement.sid]
          omega
        · exact h
      have := ih (pstep ps e).1 hkeep hte
      omega
    · omega

/-- C6: while an id is pending, a matching response envelope settles it
(resolving with the result, or rejecting with a truthy error field) and
removes it in the same step; the 60000 ms timeout callback rejects it and
removes it; along any subsequent event trace that does not reuse the id,
the id settles at most once, and exactly once when the armed timeout
event is in the trace. -/
theorem request_settles_exactly_once (ps : ProviderState) (id result err : String)
    (es : List PEvent) (hp : id ∈ ps.pending)
    (hnr : ∀ e ∈ es, e ≠ PEvent.newRequest id) (hne : err ≠ "") :
    pstep ps (.response id result none)
      = ({ pending := ps.pending.filter (fun x => x != id) }, [.resolvedS id result], [])
    ∧ pstep ps (.response id result (some err))
      = ({ pending := ps.pending.filter (fun x => x != id) }, [.rejectedErrS id err], [])
    ∧ pstep ps (.timeoutFire id)
      = ({ pending := ps.pending.filter (fun x => x != id) }, [.rejectedTimeoutS id], [])
    ∧ id ∉ (pstep ps (.response id result none)).1.pending
    ∧ providerTimeoutMs = 60000
    ∧ countFor id (settlementsOf ps es) ≤ 1
    ∧ (PEvent.timeoutFire id ∈ es → countFor id (settlementsOf ps es) = 1) := by
  have htruthy : errTruthy (some err) = true := by
    simp only [errTruthy, Bool.not_eq_true']
    cases h : err.isEmpty
    · rfl
    · exact absurd ((String.isEmpty_iff err).1 h) hne
  refine ⟨?_, ?_, ?_, ?_, rfl, ?_, ?_⟩
  · simp [pstep, hp, errTruthy]
  · simp [pstep, hp, htruthy]
  · simp [pstep, hp]
  · simp only [pstep, hp, if_true]
    intro hmem
    have := (List.mem_filter.1 hmem).2
    simp at this
  · exact count_le_one_trace id es ps hnr
  · intro ht
    have h1 := count_le_one_trace id es ps hnr
    have h2 := count_ge_one_of_timeout id es ps hp ht
    omega

/-- C6 witness: a pending id, an unrelated response, then the timeout —
the id settles exactly once. -/
theorem request_settles_exactly_once_witness :
    ("req-7" ∈ (⟨["req-7"]⟩ : ProviderState).pending)
    ∧ (∀ e ∈ [PEvent.response "other" "r" none, PEvent.timeoutFire "req-7"],
        e ≠ PEvent.newRequest "req-7")
    ∧ ("boom" ≠ "")
    ∧ (PEvent.timeoutFire "req-7" ∈ [PEvent.response "other" "r" none, PEvent.timeoutFire "req-7"]
        → countFor "req-7"
            (settlementsOf ⟨["req-7"]⟩
              [PEvent.response "other" "r" none, PEvent.timeoutFire "req-7"]) = 1) :=
  ⟨by decide, by decide, by decide,
   (request_settles_exactly_once ⟨["req-7"]⟩ "req-7" "v" "boom"
      [PEvent.response "other" "r" none, PEvent.timeoutFire "req-7"]
      (by decide) (by decide) (by decide)).2.2.2.2.2.2⟩

end MinaExt
